import Mathlib

/-
  Verification development for the CollabSpace real-time room / presence /
  whiteboard synchronization subsystem.  Definitions are shallow embeddings
  of the TypeScript sources; each definition carries a comment naming the
  source location it was translated from.  Redis hashes are modelled as
  association lists, Date.now timestamps as natural numbers (milliseconds),
  and the opaque JSON payloads (appState, files, element geometry) as
  strings, since the engine never interprets them.
-/

namespace CollabSpace

/-! ### Association list helpers (model of Redis hashes and Mongo lookups) -/

def alGet {α β : Type} [DecidableEq α] : List (α × β) → α → Option β
  | [], _ => none
  | (k, v) :: rest, a => if k = a then some v else alGet rest a

def alSet {α β : Type} [DecidableEq α] : List (α × β) → α → β → List (α × β)
  | [], a, b => [(a, b)]
  | (k, v) :: rest, a, b => if k = a then (a, b) :: rest else (k, v) :: alSet rest a b

def alDel {α β : Type} [DecidableEq α] : List (α × β) → α → List (α × β)
  | [], _ => []
  | (k, v) :: rest, a => if k = a then alDel rest a else (k, v) :: alDel rest a

abbrev UserId := String
abbrev RoomId := String

/-! ### Presence store (src/src/utils/password.util.ts, presence section:
    UserPresenceData, addUserToRoom, removeUserFromRoom, getUsersInRoom,
    getUserRooms, isUserInRoom, cleanupUserPresence).
    The store maps a room key to a hash of userId to presence data, as the
    Redis keys room:ROOMID:users do.  Key expiry is not modelled. -/

structure UserPresenceData where
  id : String
  name : String
  avatar : Option String
  socketId : String
  joinedAt : Nat
  lastActivity : Nat
deriving DecidableEq

abbrev PresenceStore := List (RoomId × List (UserId × UserPresenceData))

def presLookup (st : PresenceStore) (r : RoomId) (u : UserId) : Option UserPresenceData :=
  (alGet st r).bind (fun h => alGet h u)

/-- Model of addUserToRoom: hSet on the room hash. -/
def addUserToRoom (u : UserId) (r : RoomId) (dat : UserPresenceData) (st : PresenceStore) : PresenceStore :=
  alSet st r (alSet ((alGet st r).getD []) u dat)

/-- Model of removeUserFromRoom: hDel the field, and del the key when the
    hash has become empty. -/
def removeUserFromRoom (u : UserId) (r : RoomId) (st : PresenceStore) : PresenceStore :=
  match alGet st r with
  | none => st
  | some h =>
      let h2 := alDel h u
      if h2.length = 0 then alDel st r else alSet st r h2

/-- Model of getUsersInRoom: hGetAll and parse, overriding the id field with
    the hash field name. -/
def getUsersInRoom (r : RoomId) (st : PresenceStore) : List UserPresenceData :=
  ((alGet st r).getD []).map (fun p => { p.2 with id := p.1 })

/-- Model of getUserRooms: scan all room keys and keep those whose hash has
    the user as a field. -/
def getUserRooms (u : UserId) (st : PresenceStore) : List RoomId :=
  (st.filter (fun p => (alGet p.2 u).isSome)).map (fun p => p.1)

/-- Model of isUserInRoom: hExists on the room hash. -/
def isUserInRoom (u : UserId) (r : RoomId) (st : PresenceStore) : Bool :=
  (presLookup st r u).isSome

/-- Model of cleanupUserPresence: iterate over the rooms the user occupies;
    when a socket id is supplied, remove the record only if the stored
    socket id matches; the returned room list is the pre-cleanup occupancy
    list, exactly as in the source. -/
def cleanupUserPresence (u : UserId) (sid : Option String) (st : PresenceStore) :
    PresenceStore × List RoomId :=
  let rooms := getUserRooms u st
  (rooms.foldl (fun acc r =>
      match sid with
      | some s =>
        match presLookup acc r u with
        | some dat => if dat.socketId = s then removeUserFromRoom u r acc else acc
        | none => acc
      | none => removeUserFromRoom u r acc) st, rooms)

/-! ### Plan limits (src/src/utils/password.util.ts, plan-limits section:
    SubscriptionPlan, getPlanLimits, canAddParticipant).  Only the
    maxParticipants limit is consumed by the socket layer; the numeric
    values are the env-variable defaults FREE 2, PRO 10, TEAMS 50.  The
    limits are Int because the source uses -1 as the unlimited marker. -/

inductive SubscriptionPlan
  | FREE
  | PRO
  | TEAMS
deriving DecidableEq

structure PlanLimits where
  maxParticipants : Int
deriving DecidableEq

def getPlanLimits : SubscriptionPlan → PlanLimits
  | .FREE => ⟨2⟩
  | .PRO => ⟨10⟩
  | .TEAMS => ⟨50⟩

/-- Model of canAddParticipant: allowed when the plan is unlimited or the
    current count is below the plan limit. -/
def canAddParticipant (currentCount : Nat) (plan : SubscriptionPlan) : Bool :=
  let limits := getPlanLimits plan
  if limits.maxParticipants = -1 then true
  else if (currentCount : Int) ≥ limits.maxParticipants then false
  else true

/-! ### Whiteboard document model (src/src/models/Whiteboard.model.ts). -/

structure WbElement where
  id : String
  content : String
  userId : Option String := none
  timestamp : Option Nat := none
deriving DecidableEq

structure WbSnapshot where
  elements : List WbElement
  appState : String
  files : String
  timestamp : Nat
  userId : Option String
  version : Nat
deriving DecidableEq

structure WhiteboardDoc where
  roomId : String
  elements : List WbElement
  appState : String
  files : String
  version : Nat
  lastModifiedBy : Option String
  lastModifiedAt : Nat
  snapshots : List WbSnapshot
deriving DecidableEq

/-- Model of the WhiteboardSchema pre-save middleware
    (src/src/models/Whiteboard.model.ts lines 98 to 124): when one of the
    elements, appState or files paths was modified, bump the version and
    stamp lastModifiedAt; when the element list was modified and holds more
    than 10 elements, push a snapshot and keep only the last 50 entries
    (slice with argument -50). -/
def whiteboardPreSave (d : WhiteboardDoc) (modElements modAppState modFiles : Bool)
    (now : Nat) : WhiteboardDoc :=
  if modElements || modAppState || modFiles then
    let d1 : WhiteboardDoc := { d with version := d.version + 1, lastModifiedAt := now }
    if modElements && decide (10 < d1.elements.length) then
      let snap : WbSnapshot :=
        ⟨d1.elements, d1.appState, d1.files, now, d1.lastModifiedBy, d1.version⟩
      let snaps := d1.snapshots ++ [snap]
      { d1 with snapshots := if 50 < snaps.length then snaps.drop (snaps.length - 50) else snaps }
    else d1
  else d

/-- Document effect of the whiteboard-update socket handler on a fetched
    document (src/src/socket/handlers/sticky-note.handler.ts lines 134 to
    142): assign elements, appState and files, bump version, stamp author
    and time, then save.  Mongoose marks a reassigned path modified only
    when the new value is not deep-equal to the stored one, so the pre-save
    middleware sees each of the three paths modified exactly when the
    assigned value differs from the stored value. -/
def applyWhiteboardUpdate (d : WhiteboardDoc) (uid : String) (els : List WbElement)
    (app files : String) (now : Nat) : WhiteboardDoc :=
  whiteboardPreSave
    { d with elements := els, appState := app, files := files,
             version := d.version + 1, lastModifiedBy := some uid, lastModifiedAt := now }
    (decide (els ≠ d.elements)) (decide (app ≠ d.appState)) (decide (files ≠ d.files)) now

/-- Document effect of the element-create handler (sticky-note.handler.ts
    lines 236 to 246): push the element enriched with userId and timestamp,
    bump version, save; a push through the proxied Mongoose array marks the
    elements path modified unconditionally, so the pre-save middleware
    always sees it modified. -/
def applyElementCreate (d : WhiteboardDoc) (uid : String) (el : WbElement)
    (now : Nat) : WhiteboardDoc :=
  let newEl := { el with userId := some uid, timestamp := some now }
  whiteboardPreSave
    { d with elements := d.elements ++ [newEl],
             version := d.version + 1, lastModifiedBy := some uid }
    true false false now

/-- Document effect of the element-update handler (sticky-note.handler.ts
    lines 293 to 317): locate the element by id; when absent nothing at all
    happens (no save, hence none); when found replace it by an indexed set
    through the proxied Mongoose array, which marks the elements path
    modified unconditionally, then bump version and save. -/
def applyElementUpdate (d : WhiteboardDoc) (uid : String) (el : WbElement)
    (now : Nat) : Option WhiteboardDoc :=
  match d.elements.findIdx? (fun e => e.id == el.id) with
  | none => none
  | some i =>
      let upd := { el with userId := some uid, timestamp := some now }
      some (whiteboardPreSave
        { d with elements := d.elements.set i upd,
                 version := d.version + 1, lastModifiedBy := some uid }
        true false false now)

/-- Document effect of the element-delete handler (sticky-note.handler.ts
    lines 356 to 364): reassign the element list to its filtering by id,
    bump version and save; the source performs the write even when the id
    matches nothing, but the reassignment marks the elements path modified
    only when the filtered array is not deep-equal to the stored one, so
    the pre-save middleware fires only when an element was actually
    removed. -/
def applyElementDelete (d : WhiteboardDoc) (uid : String) (elementId : String)
    (now : Nat) : WhiteboardDoc :=
  let newEls := d.elements.filter (fun e => e.id != elementId)
  whiteboardPreSave
    { d with elements := newEls,
             version := d.version + 1, lastModifiedBy := some uid }
    (decide (newEls ≠ d.elements)) false false now

/-- The four accepted mutation kinds of the synchronization engine. -/
inductive WbOp
  | replaceAll (uid : String) (els : List WbElement) (app files : String)
  | createEl (uid : String) (el : WbElement)
  | updateEl (uid : String) (el : WbElement)
  | deleteEl (uid : String) (elementId : String)

/-- Accepted-write semantics of a mutation on an existing document; none
    means the handler performed no write (element-update on an absent id). -/
def applyMutation (op : WbOp) (d : WhiteboardDoc) (now : Nat) : Option WhiteboardDoc :=
  match op with
  | .replaceAll uid els app files => some (applyWhiteboardUpdate d uid els app files now)
  | .createEl uid el => some (applyElementCreate d uid el now)
  | .updateEl uid el => applyElementUpdate d uid el now
  | .deleteEl uid eid => some (applyElementDelete d uid eid now)

/-- Fold a timed mutation sequence over a document, skipping mutations that
    performed no write. -/
def applyAll (ops : List (WbOp × Nat)) (d : WhiteboardDoc) : WhiteboardDoc :=
  ops.foldl (fun acc p => (applyMutation p.1 acc p.2).getD acc) d

/-! ### Real-time emission model.  A handler result carries a list of
    emissions; the target distinguishes socket.emit (caller), the
    socket.to(room).emit broadcast that excludes the sender, and the
    io.to(room).emit broadcast that reaches every channel member. -/

inductive EmitTarget
  | caller
  | roomOthers (channel : String)
  | roomAll (channel : String)
deriving DecidableEq

inductive EmitPayload
  | unit
  | userList (users : List UserPresenceData)
  | roomState (users : List UserPresenceData) (wbVersion : Nat)
  | ver (v : Nat)
  | rateInfo (maxRequests windowMs : Nat)
deriving DecidableEq

structure Emission where
  target : EmitTarget
  event : String
  code : String
  payload : EmitPayload
deriving DecidableEq

/-- Socket.IO channel membership: channel name to member socket ids. -/
abbrev Channels := List (String × List String)

def chGet (chs : Channels) (c : String) : List String := (alGet chs c).getD []

def chJoin (chs : Channels) (c : String) (sid : String) : Channels :=
  let mem := chGet chs c
  if sid ∈ mem then chs else alSet chs c (mem ++ [sid])

def chLeave (chs : Channels) (c : String) (sid : String) : Channels :=
  alSet chs c ((chGet chs c).filter (fun x => x != sid))

/-- The set of socket ids a given emission is delivered to: socket.emit
    reaches the caller, socket.to excludes the sender from the channel
    members, io.to reaches every channel member. -/
def audience (chs : Channels) (sender : String) : EmitTarget → List String
  | .caller => [sender]
  | .roomOthers c => (chGet chs c).filter (fun x => x != sender)
  | .roomAll c => chGet chs c

/-! ### Connection context (socket.data as typed by the handlers). -/

structure SocketUser where
  id : String
  name : String
  avatar : Option String
  subscriptionPlan : SubscriptionPlan
  isAnonymous : Bool
deriving DecidableEq

structure SocketCtx where
  sockId : String
  user : Option SocketUser
  currentRoom : Option RoomId
  disconnectingRooms : Option (List RoomId)
deriving DecidableEq

/-! ### External durable records read by the room coordinator. -/

structure RoomDoc where
  ownerId : String
  participants : List String
deriving DecidableEq

structure DbUser where
  subscriptionPlan : SubscriptionPlan
deriving DecidableEq

/-! ### Per-event rate limiter
    (src/src/middleware/socketRateLimit.middleware.ts). -/

structure RateLimitOptions where
  maxRequests : Nat
  windowMs : Nat
  skipAnonymous : Bool
deriving DecidableEq

structure RateLimitEntry where
  count : Nat
  expireAt : Nat
deriving DecidableEq

/-- Default key generator of the limiter: ratelimit:socket:USERID:EVENT.
    Every (identity, eventName) pair owns its own counter entry; the step
    function below acts on that single entry, since the Redis INCR touches
    only its own key. -/
def rateLimitKey (userId eventName : String) : String :=
  "ratelimit:socket:" ++ userId ++ ":" ++ eventName

/-- One event through the wrapper returned by createSocketRateLimiter
    (socketRateLimit.middleware.ts lines 30 to 71): skip for anonymous
    users when configured; on Redis failure invoke the handler anyway (the
    catch branch fails open); otherwise INCR the counter, arm the expiry on
    a fresh counter, and reject with a structured error once the count
    exceeds the limit.  The Bool in the result tells whether the wrapped
    handler was invoked. -/
def socketRateLimitStep (cfg : RateLimitOptions) (isAnon : Bool) (redisOk : Bool)
    (st : Option RateLimitEntry) (t : Nat) :
    Option RateLimitEntry × Bool × List Emission :=
  if cfg.skipAnonymous && isAnon then (st, true, [])
  else if !redisOk then (st, true, [])
  else
    let entry : RateLimitEntry :=
      match st with
      | some e => if t < e.expireAt then ⟨e.count + 1, e.expireAt⟩ else ⟨1, t + cfg.windowMs⟩
      | none => ⟨1, t + cfg.windowMs⟩
    if cfg.maxRequests < entry.count then
      (some entry, false,
       [⟨.caller, "error", "RATE_LIMIT_EXCEEDED", .rateInfo cfg.maxRequests cfg.windowMs⟩])
    else
      (some entry, true, [])

/-- Run a list of timed events (authenticated user, Redis healthy) through
    the limiter, collecting for each event whether the handler ran and what
    was emitted. -/
def socketRateLimitRun (cfg : RateLimitOptions) (ts : List Nat)
    (st : Option RateLimitEntry) : Option RateLimitEntry × List (Bool × List Emission) :=
  match ts with
  | [] => (st, [])
  | t :: rest =>
      let s := socketRateLimitStep cfg false true st t
      let r := socketRateLimitRun cfg rest s.1
      (r.1, (s.2.1, s.2.2) :: r.2)

/-! ### Whiteboard socket handlers
    (src/src/socket/handlers/sticky-note.handler.ts). -/

/-- In-memory throttle map updateRateLimit of the whiteboard handlers,
    keyed by USERID-ROOMID. -/
abbrev RateMap := String → Option Nat

def userRateKey (uid rid : String) : String := uid ++ "-" ++ rid

/-- Model of checkWhiteboardAccess (sticky-note.handler.ts lines 27 to 68):
    the only rejecting check is room-channel membership of the socket; the
    whiteboard lookup that follows allows both branches for reads and
    writes alike. -/
def checkWhiteboardAccess (chs : Channels) (sockId : String) (roomId : String) : Bool :=
  decide (sockId ∈ chGet chs roomId)

structure WbUpdateData where
  roomId : String
  elements : List WbElement
  appState : String
  files : Option String

/-- Model of the whiteboard-update handler (sticky-note.handler.ts lines 75
    to 163): authentication check, channel access check, the 100 ms
    per-identity-per-room throttle, find-or-create of the document (a fresh
    document is created with version 1 and immediately saved; on a new
    Mongoose document every set path counts as modified, so the pre-save
    middleware fires), full replacement of elements, appState and files,
    save, and a whiteboard-updated broadcast to the other room members. -/
def whiteboardUpdateHandler (chs : Channels) (rl : RateMap) (wb : Option WhiteboardDoc)
    (sock : SocketCtx) (data : WbUpdateData) (now : Nat) :
    RateMap × Option WhiteboardDoc × List Emission :=
  match sock.user with
  | none => (rl, wb, [⟨.caller, "error", "AUTH_ERROR", .unit⟩])
  | some su =>
    if !checkWhiteboardAccess chs sock.sockId data.roomId then
      (rl, wb, [⟨.caller, "error", "ACCESS_DENIED", .unit⟩])
    else
      let key := userRateKey su.id data.roomId
      let lastUpdate := (rl key).getD 0
      if now - lastUpdate < 100 then
        (rl, wb, [⟨.caller, "error", "RATE_LIMIT_ERROR", .unit⟩])
      else
        let rl1 : RateMap := fun k => if k = key then some now else rl k
        let base : WhiteboardDoc :=
          match wb with
          | some d => d
          | none => whiteboardPreSave ⟨data.roomId, [], "", "", 1, some su.id, now, []⟩
                      true true true now
        let d1 := applyWhiteboardUpdate base su.id data.elements data.appState
                    ((data.files).getD "") now
        (rl1, some d1,
         [⟨.roomOthers data.roomId, "whiteboard-updated", "", .ver d1.version⟩])

structure ElementData where
  roomId : String
  element : WbElement

structure ElementDeleteData where
  roomId : String
  elementId : String

/-- Model of the element-create handler (sticky-note.handler.ts lines 208
    to 264): authentication and channel access checks, then, only when a
    document exists, push the enriched element, save and broadcast
    element-created to the other members.  No throttle is consulted. -/
def elementCreateHandler (chs : Channels) (wb : Option WhiteboardDoc) (sock : SocketCtx)
    (data : ElementData) (now : Nat) : Option WhiteboardDoc × List Emission :=
  match sock.user with
  | none => (wb, [⟨.caller, "error", "AUTH_ERROR", .unit⟩])
  | some su =>
    if !checkWhiteboardAccess chs sock.sockId data.roomId then
      (wb, [⟨.caller, "error", "ACCESS_DENIED", .unit⟩])
    else
      match wb with
      | none => (none, [])
      | some d =>
          let d1 := applyElementCreate d su.id data.element now
          (some d1, [⟨.roomOthers data.roomId, "element-created", "", .ver d1.version⟩])

/-- Model of the element-update handler (sticky-note.handler.ts lines 267
    to 327): when the element id is absent nothing happens and nothing is
    emitted; when present the element is replaced, the document saved and
    element-updated broadcast to the other members.  No throttle. -/
def elementUpdateHandler (chs : Channels) (wb : Option WhiteboardDoc) (sock : SocketCtx)
    (data : ElementData) (now : Nat) : Option WhiteboardDoc × List Emission :=
  match sock.user with
  | none => (wb, [⟨.caller, "error", "AUTH_ERROR", .unit⟩])
  | some su =>
    if !checkWhiteboardAccess chs sock.sockId data.roomId then
      (wb, [⟨.caller, "error", "ACCESS_DENIED", .unit⟩])
    else
      match wb with
      | none => (none, [])
      | some d =>
          match applyElementUpdate d su.id data.element now with
          | none => (some d, [])
          | some d1 =>
              (some d1, [⟨.roomOthers data.roomId, "element-updated", "", .ver d1.version⟩])

/-- Model of the element-delete handler (sticky-note.handler.ts lines 330
    to 382): filter the list by id, save and broadcast element-deleted,
    whether or not the id matched anything.  No throttle. -/
def elementDeleteHandler (chs : Channels) (wb : Option WhiteboardDoc) (sock : SocketCtx)
    (data : ElementDeleteData) (now : Nat) : Option WhiteboardDoc × List Emission :=
  match sock.user with
  | none => (wb, [⟨.caller, "error", "AUTH_ERROR", .unit⟩])
  | some su =>
    if !checkWhiteboardAccess chs sock.sockId data.roomId then
      (wb, [⟨.caller, "error", "ACCESS_DENIED", .unit⟩])
    else
      match wb with
      | none => (none, [])
      | some d =>
          let d1 := applyElementDelete d su.id data.elementId now
          (some d1, [⟨.roomOthers data.roomId, "element-deleted", "", .ver d1.version⟩])

/-! ### Room coordinator handlers (src/src/socket/handlers/room.handler.ts,
    recovered as src/unnamed/part_007 second section). -/

structure JoinData where
  roomId : String
  userName : Option String
  avatar : Option String
deriving DecidableEq

/-- JavaScript string-or fallback: an empty string is falsy. -/
def orElseStr (a b : String) : String := if a = "" then b else a

/-- Version of the whiteboard state sent with room-joined: the stored
    document version, or 0 when no document exists yet. -/
def wbStateVersion (wbs : List (RoomId × WhiteboardDoc)) (r : RoomId) : Nat :=
  ((alGet wbs r).map (fun w => w.version)).getD 0

/-- Model of the join-room handler (room.handler.ts lines 162 to 384,
    inner handler after the rate-limit wrapper): input validation,
    authentication, the reconnection short-circuit when a presence record
    already exists, leaving the tracked current room, room and owner
    lookups, the participant-limit check against the maximum of the
    presence count and the stored participant list, and on success the
    channel join, presence write and broadcasts.  The result is the new
    presence store, channel state, socket context, and emissions in order. -/
def joinRoomHandler (roomsDb : List (RoomId × RoomDoc)) (usersDb : List (UserId × DbUser))
    (wbs : List (RoomId × WhiteboardDoc)) (chs : Channels) (st : PresenceStore)
    (sock : SocketCtx) (data : Option JoinData) (now : Nat) :
    PresenceStore × Channels × SocketCtx × List Emission :=
  match data with
  | none => (st, chs, sock, [⟨.caller, "error", "INVALID_DATA", .unit⟩])
  | some jd =>
    if jd.roomId = "" then (st, chs, sock, [⟨.caller, "error", "INVALID_ROOM_ID", .unit⟩])
    else
      match sock.user with
      | none => (st, chs, sock, [⟨.caller, "error", "UNAUTHORIZED", .unit⟩])
      | some su =>
        let r := jd.roomId
        let u := su.id
        if isUserInRoom u r st then
          (st, chs, sock,
           [⟨.caller, "room-joined", "", .roomState (getUsersInRoom r st) (wbStateVersion wbs r)⟩,
            ⟨.roomOthers r, "user-restored", "", .unit⟩])
        else
          let leaveStep : PresenceStore × Channels × List Emission :=
            match sock.currentRoom with
            | some cr =>
                let st1 := removeUserFromRoom u cr st
                (st1, chLeave chs cr sock.sockId,
                 [⟨.roomOthers cr, "user-left", "", .userList (getUsersInRoom cr st1)⟩])
            | none => (st, chs, [])
          let st1 := leaveStep.1
          let chs1 := leaveStep.2.1
          let ems0 := leaveStep.2.2
          match alGet roomsDb r with
          | none => (st1, chs1, sock,
              ems0 ++ [⟨.caller, "room:join-error", "ROOM_NOT_FOUND", .unit⟩])
          | some room =>
            match alGet usersDb room.ownerId with
            | none => (st1, chs1, sock,
                ems0 ++ [⟨.caller, "room:join-error", "OWNER_NOT_FOUND", .unit⟩])
            | some owner =>
              let currentCount := max (getUsersInRoom r st1).length room.participants.length
              if !canAddParticipant currentCount owner.subscriptionPlan then
                (st1, chs1, sock,
                 ems0 ++ [⟨.caller, "room:join-error", "PARTICIPANT_LIMIT", .unit⟩])
              else
                let chs2 := chJoin chs1 r sock.sockId
                let sock2 := { sock with currentRoom := some r }
                let nm := orElseStr su.name (orElseStr ((jd.userName).getD "") "Anonymous")
                let av := match su.avatar with | some a => some a | none => jd.avatar
                let pdat : UserPresenceData := ⟨u, nm, av, sock.sockId, now, now⟩
                let st2 := addUserToRoom u r pdat st1
                (st2, chs2, sock2,
                 ems0 ++
                 [⟨.roomOthers r, "user-joined", "", .userList [pdat]⟩,
                  ⟨.roomOthers r, "user-online", "", .unit⟩,
                  ⟨.caller, "room-joined", "",
                    .roomState (getUsersInRoom r st2) (wbStateVersion wbs r)⟩])

structure RoomIdData where
  roomId : String
deriving DecidableEq

/-- Model of the get-room-users handler (room.handler.ts lines 527 to 551,
    inner handler): no authentication and no membership validation at all;
    destructuring a missing payload throws and lands in the catch branch,
    otherwise the full presence list of the requested room is returned to
    the caller. -/
def getRoomUsersHandler (st : PresenceStore) (data : Option RoomIdData) : List Emission :=
  match data with
  | none => [⟨.caller, "error", "GET_ROOM_USERS_ERROR", .unit⟩]
  | some d => [⟨.caller, "room-users", "", .userList (getUsersInRoom d.roomId st)⟩]

/-- Model of the request-room-users handler (room.handler.ts lines 553 to
    619, inner handler): payload validation, authentication, and a
    membership check that rejects callers absent from the room with an
    UNAUTHORIZED error before the list is returned. -/
def requestRoomUsersHandler (st : PresenceStore) (sock : SocketCtx)
    (data : Option RoomIdData) : List Emission :=
  match data with
  | none => [⟨.caller, "error", "INVALID_DATA", .unit⟩]
  | some d =>
    if d.roomId = "" then [⟨.caller, "error", "INVALID_ROOM_ID", .unit⟩]
    else
      match sock.user with
      | none => [⟨.caller, "error", "UNAUTHORIZED", .unit⟩]
      | some su =>
        if !isUserInRoom su.id d.roomId st then
          [⟨.caller, "error", "UNAUTHORIZED", .unit⟩]
        else
          [⟨.caller, "room-users-list", "", .userList (getUsersInRoom d.roomId st)⟩]

/-! ### Chat relay (src/src/handlers/chat.handler.ts, recovered as
    src/unnamed/part_003).  Only the chat:message path is embedded; the
    message append to durable storage is kept, the history load is not
    needed by any claim. -/

structure ChatMessage where
  roomId : String
  userId : String
  userName : String
  content : String
  createdAt : Nat
deriving DecidableEq

/-- Model of the chat:message handler (chat.handler.ts lines 62 to 108):
    reject unauthenticated callers with chat:error, otherwise persist the
    message and broadcast it through io.to on the chat channel, which
    includes the sender when the sender joined that channel. -/
def chatMessageHandler (msgs : List ChatMessage) (sock : SocketCtx)
    (roomId content : String) (now : Nat) : List ChatMessage × List Emission :=
  match sock.user with
  | none => (msgs, [⟨.caller, "chat:error", "", .unit⟩])
  | some su =>
      let m : ChatMessage := ⟨roomId, su.id, su.name, content, now⟩
      (msgs ++ [m], [⟨.roomAll ("chat:" ++ roomId), "chat:message", "", .unit⟩])

/-! ### Transport disconnect path (src/src/socket/handlers/
    connection.handler.ts, recovered as src/unnamed/part_007 first section,
    plus the second disconnect listener registered by room.handler.ts lines
    622 to 653; both listeners are registered on every connection by
    src/src/socket/index.ts and run in registration order). -/

def dedupAux : List String → List String → List String
  | [], _ => []
  | x :: xs, seen => if x ∈ seen then dedupAux xs seen else x :: dedupAux xs (x :: seen)

/-- JavaScript new Set spread: keep first occurrences. -/
def dedup (l : List String) : List String := dedupAux l []

/-- Channels a socket currently belongs to (socket.rooms). -/
def socketRoomsOf (chs : Channels) (sid : String) : List String :=
  (chs.filter (fun p => decide (sid ∈ p.2))).map (fun p => p.1)

/-- Model of the disconnecting listener (connection.handler.ts lines 20 to
    30): snapshot the socket channels, minus the private self channel, into
    socket.data before the transport clears them. -/
def handleDisconnecting (chs : Channels) (sock : SocketCtx) : SocketCtx :=
  let snap := (socketRoomsOf chs sock.sockId).filter (fun r => r != sock.sockId)
  { sock with disconnectingRooms := some snap }

/-- Model of the connection-level disconnect listener (connection.handler.ts
    lines 33 to 67): clean up presence guarded by the socket id, then
    broadcast user-left to the union of the snapshotted rooms and the rooms
    the cleanup reported, with the post-cleanup member list. -/
def connDisconnectHandler (st : PresenceStore) (sock : SocketCtx) :
    PresenceStore × List Emission :=
  match sock.user with
  | none => (st, [])
  | some su =>
      let affected := (sock.disconnectingRooms).getD
        (match sock.currentRoom with | some r => [r] | none => [])
      let res := cleanupUserPresence su.id (some sock.sockId) st
      let rooms := dedup (affected ++ res.2)
      (res.1, rooms.map (fun r =>
        ⟨.roomOthers r, "user-left", "", .userList (getUsersInRoom r res.1)⟩))

/-- Model of the room-handler disconnect listener (room.handler.ts lines
    622 to 653): when a current room is tracked, remove the presence record
    for it without any socket-id comparison, then broadcast user-offline
    and user-left. -/
def roomDisconnectHandler (st : PresenceStore) (sock : SocketCtx) :
    PresenceStore × List Emission :=
  match sock.user, sock.currentRoom with
  | some su, some r =>
      let st1 := removeUserFromRoom su.id r st
      (st1, [⟨.roomOthers r, "user-offline", "", .unit⟩,
             ⟨.roomOthers r, "user-left", "", .userList (getUsersInRoom r st1)⟩])
  | _, _ => (st, [])

/-- One transport-level disconnect signal as the server processes it: the
    disconnecting snapshot, then both registered disconnect listeners in
    registration order. -/
def disconnectRoutine (chs : Channels) (st : PresenceStore) (sock : SocketCtx) :
    PresenceStore × List Emission :=
  let sock1 := handleDisconnecting chs sock
  let a := connDisconnectHandler st sock1
  let b := roomDisconnectHandler a.1 sock1
  (b.1, a.2 ++ b.2)

/-! ### Concrete sample data used by counterexamples and witnesses. -/

def exElem (i : String) : WbElement := ⟨i, "", none, none⟩

def c1Doc : WhiteboardDoc := ⟨"room1", [], "", "", 0, none, 0, []⟩

def c2User : SocketUser := ⟨"userA", "A", none, .FREE, false⟩

def c2Sock : SocketCtx := ⟨"sockA", some c2User, none, none⟩

def c2Chs : Channels := [("room1", ["sockA"])]

def c2Doc : WhiteboardDoc := ⟨"room1", [], "", "", 0, none, 0, []⟩

def c2Rl : RateMap := fun k => if k = userRateKey "userA" "room1" then some 1000 else none

def c3Pres : PresenceStore :=
  [("room1", [("userO", ⟨"userO", "O", none, "sockO", 0, 0⟩),
              ("userB", ⟨"userB", "B", none, "sockB", 0, 0⟩)])]

def c3Rooms : List (RoomId × RoomDoc) := [("room1", ⟨"userO", ["userO", "userB"]⟩)]

def c3Users : List (UserId × DbUser) := [("userO", ⟨.FREE⟩)]

def c3Sock : SocketCtx := ⟨"sockC", some ⟨"userC", "C", none, .FREE, false⟩, some "room1", none⟩

def c3SockW : SocketCtx := ⟨"sockC", some ⟨"userC", "C", none, .FREE, false⟩, none, none⟩

def c4Pres : PresenceStore := [("room1", [("user1", ⟨"user1", "U", none, "sockB", 0, 0⟩)])]

def c4Chs : Channels := [("room1", ["sockA"])]

def c4Sock : SocketCtx := ⟨"sockA", some ⟨"user1", "U", none, .FREE, false⟩, some "room1", none⟩

def c5Pres : PresenceStore := [("room1", [("user1", ⟨"user1", "U", none, "sockA", 0, 0⟩)])]

def c5Sock : SocketCtx := ⟨"sockA", some ⟨"user1", "U", none, .FREE, false⟩, some "room1", none⟩

def c6Doc : WhiteboardDoc := ⟨"room1", [⟨"a", "x", none, none⟩], "", "", 3, none, 0, []⟩

def c6Sock : SocketCtx := ⟨"sockA", some ⟨"user1", "U", none, .FREE, false⟩, none, none⟩

def c6Chs : Channels := [("room1", ["sockA"])]

def c7Cfg : RateLimitOptions := ⟨2, 100, false⟩

/-- Structured rate-limit error of the per-event limiter: code, human
    message (elided as the code string) and the limiting window. -/
def errEm (cfg : RateLimitOptions) : Emission :=
  ⟨.caller, "error", "RATE_LIMIT_EXCEEDED", .rateInfo cfg.maxRequests cfg.windowMs⟩

/-- The snapshot the pre-save middleware records for a document: the state
    after the hook bumped the version once. -/
def snapOf (d : WhiteboardDoc) (now : Nat) : WbSnapshot :=
  ⟨d.elements, d.appState, d.files, now, d.lastModifiedBy, d.version + 1⟩

def c8Doc : WhiteboardDoc :=
  ⟨"room1", ["a", "b", "c", "d", "e", "f", "g", "h", "i", "j", "k"].map exElem,
   "", "", 0, none, 0, []⟩

def c9Chs : Channels := [("chat:room1", ["sockA", "sockB"])]

def c9Sock : SocketCtx := ⟨"sockA", some ⟨"user1", "U", none, .FREE, false⟩, none, none⟩

def c10Pres : PresenceStore := [("room1", [("user2", ⟨"user2", "V", none, "sockB", 0, 0⟩)])]

def c10Sock : SocketCtx := ⟨"sockA", some ⟨"user1", "U", none, .FREE, false⟩, none, none⟩

/-! ## Theorems -/

/-! ### Association list and presence store lemmas -/

theorem alGet_alSet_self {α β : Type} [DecidableEq α] (l : List (α × β)) (a : α) (b : β) :
    alGet (alSet l a b) a = some b := by
  induction l with
  | nil => simp [alSet, alGet]
  | cons p rest ih =>
      by_cases h : p.1 = a
      · simp [alSet, alGet, h]
      · simp [alSet, alGet, h, ih]

theorem alGet_alSet_ne {α β : Type} [DecidableEq α] (l : List (α × β)) (a c : α) (b : β)
    (h : a ≠ c) : alGet (alSet l a b) c = alGet l c := by
  induction l with
  | nil => simp [alSet, alGet, h]
  | cons p rest ih =>
      by_cases hp : p.1 = a
      · simp [alSet, alGet, hp, h]
      · by_cases hc : p.1 = c
        · simp [alSet, alGet, hp, hc, Ne.symm h]
        · simp [alSet, alGet, hp, hc, ih]

theorem alGet_alDel_self {α β : Type} [DecidableEq α] (l : List (α × β)) (a : α) :
    alGet (alDel l a) a = none := by
  induction l with
  | nil => simp [alDel, alGet]
  | cons p rest ih =>
      by_cases h : p.1 = a
      · simp [alDel, alGet, h, ih]
      · simp [alDel, alGet, h, ih]

theorem alGet_alDel_ne {α β : Type} [DecidableEq α] (l : List (α × β)) (a c : α)
    (h : a ≠ c) : alGet (alDel l a) c = alGet l c := by
  induction l with
  | nil => simp [alDel]
  | cons p rest ih =>
      by_cases hp : p.1 = a
      · have hc : p.1 ≠ c := by rw [hp]; exact h
        simp [alDel, alGet, hp, hc, h, ih]
      · by_cases hc : p.1 = c
        · simp [alDel, alGet, hp, hc, Ne.symm h]
        · simp [alDel, alGet, hp, hc, ih]

theorem alGet_of_alDel_nil {α β : Type} [DecidableEq α] (l : List (α × β)) (a c : α)
    (hnil : alDel l a = []) (h : c ≠ a) : alGet l c = none := by
  induction l with
  | nil => rfl
  | cons p rest ih =>
      by_cases hp : p.1 = a
      · have : alDel rest a = [] := by simpa [alDel, hp] using hnil
        have hc : p.1 ≠ c := by rw [hp]; exact fun e => h e.symm
        simp [alGet, hc, ih this]
      · exfalso
        simp [alDel, hp] at hnil

theorem presLookup_removeUserFromRoom (u : UserId) (r0 : RoomId) (st : PresenceStore)
    (r : RoomId) (u2 : UserId) :
    presLookup (removeUserFromRoom u r0 st) r u2 =
      if r = r0 ∧ u2 = u then none else presLookup st r u2 := by
  unfold removeUserFromRoom
  cases hr0 : alGet st r0 with
  | none =>
      by_cases hr : r = r0
      · by_cases hu : u2 = u
        · subst hr; subst hu
          simp [presLookup, hr0]
        · simp [hr, hu]
      · simp [hr]
  | some h =>
      by_cases hlen : (alDel h u).length = 0
      · have hnil : alDel h u = [] := List.length_eq_zero.mp hlen
        simp only [hlen, if_true]
        by_cases hr : r = r0
        · subst hr
          by_cases hu : u2 = u
          · simp [presLookup, alGet_alDel_self, hu]
          · have : alGet h u2 = none := alGet_of_alDel_nil h u u2 hnil hu
            simp [presLookup, alGet_alDel_self, hu, hr0, this]
        · simp [presLookup, alGet_alDel_ne st r0 r (fun e => hr e.symm), hr]
      · simp only [hlen, if_false]
        by_cases hr : r = r0
        · subst hr
          by_cases hu : u2 = u
          · simp [presLookup, alGet_alSet_self, hu, alGet_alDel_self]
          · simp [presLookup, alGet_alSet_self, hu, hr0,
                  alGet_alDel_ne h u u2 (fun e => hu e.symm)]
        · simp [presLookup, alGet_alSet_ne st r0 r _ (fun e => hr e.symm), hr]

theorem alGet_removeUserFromRoom_ne (u : UserId) (r0 : RoomId) (st : PresenceStore)
    (r : RoomId) (h : r ≠ r0) :
    alGet (removeUserFromRoom u r0 st) r = alGet st r := by
  unfold removeUserFromRoom
  cases hr0 : alGet st r0 with
  | none => rfl
  | some hh =>
      by_cases hlen : (alDel hh u).length = 0
      · simp [hlen, alGet_alDel_ne st r0 r (fun e => h e.symm)]
      · simp [hlen, alGet_alSet_ne st r0 r _ (fun e => h e.symm)]

theorem getUsersInRoom_removeUserFromRoom_ne (u : UserId) (r0 : RoomId)
    (st : PresenceStore) (r : RoomId) (h : r ≠ r0) :
    getUsersInRoom r (removeUserFromRoom u r0 st) = getUsersInRoom r st := by
  unfold getUsersInRoom
  rw [alGet_removeUserFromRoom_ne u r0 st r h]

/-! ### Version counter lemmas -/

theorem whiteboardPreSave_version (d : WhiteboardDoc) (a f : Bool) (now : Nat) :
    (whiteboardPreSave d true a f now).version = d.version + 1 := by
  unfold whiteboardPreSave
  simp only [Bool.true_or, if_true]
  split <;> rfl

theorem whiteboardPreSave_version_cases (d : WhiteboardDoc) (m a f : Bool) (now : Nat) :
    (whiteboardPreSave d m a f now).version =
      if m || a || f then d.version + 1 else d.version := by
  unfold whiteboardPreSave
  by_cases h : (m || a || f) = true
  · rw [if_pos h, if_pos h]
    dsimp only
    split <;> rfl
  · rw [if_neg h, if_neg h]

/-- When the filtered element list deep-equals the stored one (the deleted
    id matched nothing), the reassignment does not mark the elements path
    modified, the pre-save middleware does not fire, and the delete reduces
    to the handler increment and author stamp alone. -/
theorem applyElementDelete_noMatch (d : WhiteboardDoc) (uid eid : String) (now : Nat)
    (h : d.elements.filter (fun e => e.id != eid) = d.elements) :
    applyElementDelete d uid eid now =
      { d with version := d.version + 1, lastModifiedBy := some uid } := by
  unfold applyElementDelete
  dsimp only
  rw [h]
  simp [whiteboardPreSave]

theorem applyMutation_version_bounds (op : WbOp) (d : WhiteboardDoc) (now : Nat)
    (d2 : WhiteboardDoc) (h : applyMutation op d now = some d2) :
    d2.version = d.version + 1 ∨ d2.version = d.version + 2 := by
  cases op with
  | replaceAll uid els app files =>
      simp only [applyMutation, Option.some.injEq] at h
      rw [← h]
      unfold applyWhiteboardUpdate
      rw [whiteboardPreSave_version_cases]
      split
      · right; rfl
      · left; rfl
  | createEl uid el =>
      simp only [applyMutation, Option.some.injEq] at h
      rw [← h]
      right
      simp [applyElementCreate, whiteboardPreSave_version]
  | updateEl uid el =>
      simp only [applyMutation, applyElementUpdate] at h
      cases hidx : d.elements.findIdx? (fun e => e.id == el.id) with
      | none => rw [hidx] at h; exact absurd h (by simp)
      | some i =>
          rw [hidx] at h
          simp only [Option.some.injEq] at h
          rw [← h]
          right
          simp [whiteboardPreSave_version]
  | deleteEl uid eid =>
      simp only [applyMutation, Option.some.injEq] at h
      rw [← h]
      unfold applyElementDelete
      dsimp only
      rw [whiteboardPreSave_version_cases]
      split
      · right; rfl
      · left; rfl

/-- C1 (corrected): on the code as written, the version of a whiteboard
    document strictly increases on every accepted mutation and never
    decreases across any sequence of accepted mutations, but the increment
    of a single accepted mutation is 1 or 2, never the claimed exactly 1:
    the socket handler bumps version once before saving and the schema
    pre-save middleware bumps it a second time exactly when an
    elements/appState/files path was marked modified.  Element-create and a
    matched element-update always mark the elements path (push and indexed
    set mark unconditionally), so they advance the version by exactly 2,
    refuting the claim; an element-delete whose id matches nothing leaves
    the reassigned array deep-equal to the stored one, so the hook does not
    fire and the version advances by exactly 1.  Conjuncts: every accepted
    mutation adds exactly 1 or exactly 2; element-create always adds
    exactly 2; a no-match element-delete adds exactly 1; over any timed
    mutation sequence the version never decreases. -/
theorem C1_version_step_bounds_and_monotone :
    (∀ (op : WbOp) (d : WhiteboardDoc) (now : Nat) (d2 : WhiteboardDoc),
        applyMutation op d now = some d2 →
          d2.version = d.version + 1 ∨ d2.version = d.version + 2) ∧
    (∀ (d : WhiteboardDoc) (uid : String) (el : WbElement) (now : Nat),
        (applyElementCreate d uid el now).version = d.version + 2) ∧
    (∀ (d : WhiteboardDoc) (uid eid : String) (now : Nat),
        d.elements.filter (fun e => e.id != eid) = d.elements →
          (applyElementDelete d uid eid now).version = d.version + 1) ∧
    (∀ (ops : List (WbOp × Nat)) (d : WhiteboardDoc),
        d.version ≤ (applyAll ops d).version) := by
  refine ⟨applyMutation_version_bounds, ?_, ?_, ?_⟩
  · intro d uid el now
    simp [applyElementCreate, whiteboardPreSave_version]
  · intro d uid eid now h
    rw [applyElementDelete_noMatch d uid eid now h]
  · intro ops
    induction ops with
    | nil => intro d; simp [applyAll]
    | cons p rest ih =>
        intro d
        have hfold : applyAll (p :: rest) d =
            applyAll rest ((applyMutation p.1 d p.2).getD d) := rfl
        rw [hfold]
        have step : d.version ≤ ((applyMutation p.1 d p.2).getD d).version := by
          cases hm : applyMutation p.1 d p.2 with
          | none => simp
          | some d2 =>
              rcases applyMutation_version_bounds p.1 d p.2 d2 hm with h2 | h2 <;>
                simp [h2]
        exact le_trans step (ih _)

/-- C1 witness: the theorem applied to a concrete accepted element-create
    on the empty version-0 document. -/
theorem C1_version_step_bounds_and_monotone_witness :
    (applyElementCreate c1Doc "user1" (exElem "e1") 5).version = c1Doc.version + 1 ∨
    (applyElementCreate c1Doc "user1" (exElem "e1") 5).version = c1Doc.version + 2 :=
  C1_version_step_bounds_and_monotone.1 (.createEl "user1" (exElem "e1")) c1Doc 5 _ rfl

/-- C1 counterexample to the claim as stated: a single accepted
    element-create on the version-0 document yields version 2, not
    version 1, so an accepted mutation does not increment the counter by
    exactly 1. -/
theorem C1_counterexample :
    applyMutation (.createEl "user1" (exElem "e1")) c1Doc 5 =
      some (applyElementCreate c1Doc "user1" (exElem "e1") 5) ∧
    (applyElementCreate c1Doc "user1" (exElem "e1") 5).version = 2 ∧
    ¬ (applyElementCreate c1Doc "user1" (exElem "e1") 5).version = c1Doc.version + 1 := by
  refine ⟨rfl, by decide, by decide⟩

/-! ### C2: write throttling -/

theorem whiteboardPreSave_elements (d : WhiteboardDoc) (m a f : Bool) (now : Nat) :
    (whiteboardPreSave d m a f now).elements = d.elements := by
  unfold whiteboardPreSave
  split
  · dsimp only
    split <;> rfl
  · rfl

/-- C2 (corrected): only the whiteboard-update (replace-all) operation
    consults the 100 ms per-identity-per-room throttle; when an update
    arrives less than 100 ms after the identity's previous accepted
    whiteboard-update to the same room it is rejected with a typed
    RATE_LIMIT_ERROR notice to the caller only and the throttle map, the
    document and its version are left unchanged.  The element-create,
    element-update and element-delete handlers consult no throttle at all,
    so the scenario of the claim (a second element-create 10 ms after the
    first) is accepted rather than rejected; the second conjunct shows the
    element-create handler can never emit a rate-limit error. -/
theorem C2_throttle_only_replace_all
    (chs : Channels) (rl : RateMap) (wb : Option WhiteboardDoc) (sock : SocketCtx)
    (su : SocketUser) (data : WbUpdateData) (now last : Nat)
    (hu : sock.user = some su)
    (hacc : checkWhiteboardAccess chs sock.sockId data.roomId = true)
    (hlast : rl (userRateKey su.id data.roomId) = some last)
    (hlt : now - last < 100) :
    whiteboardUpdateHandler chs rl wb sock data now =
      (rl, wb, [⟨.caller, "error", "RATE_LIMIT_ERROR", .unit⟩]) ∧
    (∀ (chs2 : Channels) (wb2 : Option WhiteboardDoc) (sock2 : SocketCtx)
        (d2 : ElementData) (n2 : Nat),
        ∀ e ∈ (elementCreateHandler chs2 wb2 sock2 d2 n2).2,
          e.code ≠ "RATE_LIMIT_ERROR") := by
  constructor
  · unfold whiteboardUpdateHandler
    rw [hu]
    simp [hacc, hlast, hlt]
  · intro chs2 wb2 sock2 d2 n2 e he
    unfold elementCreateHandler at he
    cases hu2 : sock2.user with
    | none =>
        rw [hu2] at he
        simp only [List.mem_singleton] at he
        subst he
        decide
    | some su2 =>
        rw [hu2] at he
        by_cases hacc2 : checkWhiteboardAccess chs2 sock2.sockId d2.roomId
        · simp only [hacc2, Bool.not_true, Bool.false_eq_true, if_false] at he
          cases wb2 with
          | none => simp at he
          | some dd =>
              simp only [List.mem_singleton] at he
              subst he
              simp
        · simp only [Bool.not_eq_true] at hacc2
          simp only [hacc2, Bool.not_false, if_true, List.mem_singleton] at he
          subst he
          decide

/-- C2 witness: concrete throttled whiteboard-update 10 ms after the
    previous accepted one. -/
theorem C2_throttle_only_replace_all_witness :
    whiteboardUpdateHandler c2Chs c2Rl (some c2Doc) c2Sock ⟨"room1", [], "", none⟩ 1010 =
      (c2Rl, some c2Doc, [⟨.caller, "error", "RATE_LIMIT_ERROR", .unit⟩]) :=
  (C2_throttle_only_replace_all c2Chs c2Rl (some c2Doc) c2Sock c2User
    ⟨"room1", [], "", none⟩ 1010 1000 rfl (by decide) rfl (by decide)).1

/-- C2 counterexample to the claim as stated: a second element-create
    submitted 10 ms after a first accepted one is accepted, not rejected:
    the document version advances to 4, an element-created broadcast is
    produced, and no RATE_LIMIT notice of any kind is emitted. -/
theorem C2_counterexample :
    ((elementCreateHandler c2Chs
        (elementCreateHandler c2Chs (some c2Doc) c2Sock ⟨"room1", exElem "e1"⟩ 1000).1
        c2Sock ⟨"room1", exElem "e2"⟩ 1010).1.map (fun d => d.version) = some 4) ∧
    ((elementCreateHandler c2Chs
        (elementCreateHandler c2Chs (some c2Doc) c2Sock ⟨"room1", exElem "e1"⟩ 1000).1
        c2Sock ⟨"room1", exElem "e2"⟩ 1010).2.filter
          (fun e => decide (e.code = "RATE_LIMIT_ERROR")) = []) ∧
    ((elementCreateHandler c2Chs
        (elementCreateHandler c2Chs (some c2Doc) c2Sock ⟨"room1", exElem "e1"⟩ 1000).1
        c2Sock ⟨"room1", exElem "e2"⟩ 1010).2 ≠ []) := by
  decide

/-! ### C5: reconnection short-circuit -/

/-- C5 (confirmed): when the identity already has a presence record for the
    room, join-room short-circuits: the presence store, channel state and
    socket context are returned unchanged, so the single (identity, room)
    record persists and no duplicate is created; the current room state is
    emitted back to the caller as room-joined, and the other members
    receive a user-restored notice, not a user-joined event. -/
theorem C5_reconnect_short_circuit
    (roomsDb : List (RoomId × RoomDoc)) (usersDb : List (UserId × DbUser))
    (wbs : List (RoomId × WhiteboardDoc)) (chs : Channels) (st : PresenceStore)
    (sock : SocketCtx) (jd : JoinData) (now : Nat) (su : SocketUser)
    (hu : sock.user = some su)
    (hrid : ¬ jd.roomId = "")
    (hin : isUserInRoom su.id jd.roomId st = true) :
    joinRoomHandler roomsDb usersDb wbs chs st sock (some jd) now =
      (st, chs, sock,
       [⟨.caller, "room-joined", "",
          .roomState (getUsersInRoom jd.roomId st) (wbStateVersion wbs jd.roomId)⟩,
        ⟨.roomOthers jd.roomId, "user-restored", "", .unit⟩]) := by
  unfold joinRoomHandler
  rw [hu]
  simp [hrid, hin]

/-- C5 witness: a concrete reconnection against a store already holding the
    single record for (user1, room1). -/
theorem C5_reconnect_short_circuit_witness :
    joinRoomHandler [] [] [] [] c5Pres c5Sock (some ⟨"room1", none, none⟩) 7 =
      (c5Pres, ([] : Channels), c5Sock,
       [⟨.caller, "room-joined", "",
          .roomState (getUsersInRoom "room1" c5Pres) (wbStateVersion [] "room1")⟩,
        ⟨.roomOthers "room1", "user-restored", "", .unit⟩]) :=
  C5_reconnect_short_circuit [] [] [] [] c5Pres c5Sock ⟨"room1", none, none⟩ 7
    ⟨"user1", "U", none, .FREE, false⟩ rfl (by decide) (by decide)

/-! ### C6: element-update and element-delete on an absent id -/

/-- C6 (corrected): when the element id is absent, element-update is a
    silent no-op: the document is unchanged and nothing at all is emitted,
    so no typed not-found notice reaches the caller.  Element-delete on an
    absent id is not fully a no-op either: the element list is unchanged
    and, because the reassigned array deep-equals the stored one, the
    pre-save middleware does not fire, so the version advances by exactly 1
    (the handler increment) and lastModifiedAt is not restamped; the
    document is still persisted and an element-deleted broadcast with the
    new version is sent to the other members; again no not-found notice is
    emitted. -/
theorem C6_absent_element_silent_noop_or_phantom_delete
    (chs : Channels) (sock : SocketCtx) (su : SocketUser) (d : WhiteboardDoc)
    (rid : String) (el : WbElement) (eid : String) (now : Nat)
    (hu : sock.user = some su)
    (hacc : checkWhiteboardAccess chs sock.sockId rid = true)
    (hupd : d.elements.findIdx? (fun e => e.id == el.id) = none)
    (hdel : d.elements.filter (fun e => e.id != eid) = d.elements) :
    elementUpdateHandler chs (some d) sock ⟨rid, el⟩ now = (some d, []) ∧
    (elementDeleteHandler chs (some d) sock ⟨rid, eid⟩ now).1 =
      some (applyElementDelete d su.id eid now) ∧
    (applyElementDelete d su.id eid now).elements = d.elements ∧
    (applyElementDelete d su.id eid now).version = d.version + 1 ∧
    (applyElementDelete d su.id eid now).lastModifiedAt = d.lastModifiedAt ∧
    (elementDeleteHandler chs (some d) sock ⟨rid, eid⟩ now).2 =
      [⟨.roomOthers rid, "element-deleted", "", .ver (d.version + 1)⟩] := by
  have hred := applyElementDelete_noMatch d su.id eid now hdel
  refine ⟨?_, ?_, ?_, ?_, ?_, ?_⟩
  · unfold elementUpdateHandler
    rw [hu]
    simp [hacc, applyElementUpdate, hupd]
  · unfold elementDeleteHandler
    rw [hu]
    simp [hacc]
  · rw [hred]
  · rw [hred]
  · rw [hred]
  · unfold elementDeleteHandler
    rw [hu]
    simp [hacc, hred]

/-- C6 witness: concrete absent id zzz against the one-element document. -/
theorem C6_absent_element_witness :
    elementUpdateHandler c6Chs (some c6Doc) c6Sock ⟨"room1", exElem "zzz"⟩ 9 =
      (some c6Doc, []) ∧
    (applyElementDelete c6Doc "user1" "zzz" 9).version = c6Doc.version + 1 := by
  have h := C6_absent_element_silent_noop_or_phantom_delete c6Chs c6Sock
    ⟨"user1", "U", none, .FREE, false⟩ c6Doc "room1" (exElem "zzz") "zzz" 9
    rfl (by decide) (by decide) (by decide)
  exact ⟨h.1, h.2.2.2.1⟩

/-- C6 counterexample to the claim as stated: deleting the absent id zzz
    leaves the element list alone but advances the version from 3 to 4 (the
    handler increment; the pre-save hook does not fire because the
    reassigned array deep-equals the stored one) and broadcasts an
    element-deleted event, so the operation is neither a no-op on the
    version nor silent toward the room, and no not-found notice is
    emitted. -/
theorem C6_counterexample :
    (elementDeleteHandler c6Chs (some c6Doc) c6Sock ⟨"room1", "zzz"⟩ 9).1.map
        (fun d => d.version) = some 4 ∧
    c6Doc.version = 3 ∧
    c6Doc.elements.filter (fun e => e.id == "zzz") = [] ∧
    (elementDeleteHandler c6Chs (some c6Doc) c6Sock ⟨"room1", "zzz"⟩ 9).2 ≠ [] := by
  decide

/-! ### C3: participant-limit rejection on join -/

/-- C3 (corrected): when an authenticated, not-yet-present identity asks to
    join an existing room whose owner resolves and whose occupancy, taken
    as the maximum of the presence count and the stored participant list
    length, has reached the owner plan limit, the join is rejected: the
    only caller-directed emission is the typed PARTICIPANT_LIMIT error, no
    emission of the request targets the room channel, and the presence
    records of the room are pointwise unchanged, so no record is written
    for the joiner.  The hypothesis that the tracked current room of the
    connection differs from the target room is required: without it the
    leave-previous-room step broadcasts user-left into the target room
    before the rejection, as the counterexample shows. -/
theorem C3_capacity_reject
    (roomsDb : List (RoomId × RoomDoc)) (usersDb : List (UserId × DbUser))
    (wbs : List (RoomId × WhiteboardDoc)) (chs : Channels) (st : PresenceStore)
    (sock : SocketCtx) (su : SocketUser) (jd : JoinData) (now : Nat)
    (room : RoomDoc) (owner : DbUser)
    (hu : sock.user = some su)
    (hrid : ¬ jd.roomId = "")
    (hnin : isUserInRoom su.id jd.roomId st = false)
    (hcr : sock.currentRoom ≠ some jd.roomId)
    (hroom : alGet roomsDb jd.roomId = some room)
    (howner : alGet usersDb room.ownerId = some owner)
    (hcap : canAddParticipant
        (max (getUsersInRoom jd.roomId st).length room.participants.length)
        owner.subscriptionPlan = false) :
    ((joinRoomHandler roomsDb usersDb wbs chs st sock (some jd) now).2.2.2.filter
        (fun e => decide (e.target = .caller)) =
      [⟨.caller, "room:join-error", "PARTICIPANT_LIMIT", .unit⟩]) ∧
    (∀ e ∈ (joinRoomHandler roomsDb usersDb wbs chs st sock (some jd) now).2.2.2,
        e.target ≠ .roomOthers jd.roomId ∧ e.target ≠ .roomAll jd.roomId) ∧
    (∀ u2, presLookup (joinRoomHandler roomsDb usersDb wbs chs st sock (some jd) now).1
        jd.roomId u2 = presLookup st jd.roomId u2) := by
  cases hcrc : sock.currentRoom with
  | none =>
      have hres : joinRoomHandler roomsDb usersDb wbs chs st sock (some jd) now =
          (st, chs, sock, [⟨.caller, "room:join-error", "PARTICIPANT_LIMIT", .unit⟩]) := by
        unfold joinRoomHandler
        rw [hu]
        simp [hrid, hnin, hcrc, hroom, howner, hcap]
      rw [hres]
      refine ⟨by simp, ?_, fun u2 => rfl⟩
      intro e he
      simp only [List.mem_singleton] at he
      subst he
      exact ⟨by simp, by simp⟩
  | some cr =>
      have hcr2 : cr ≠ jd.roomId := by
        intro hcontra
        exact hcr (by rw [hcrc, hcontra])
      have husers : getUsersInRoom jd.roomId (removeUserFromRoom su.id cr st) =
          getUsersInRoom jd.roomId st :=
        getUsersInRoom_removeUserFromRoom_ne su.id cr st jd.roomId (Ne.symm hcr2)
      have hres : joinRoomHandler roomsDb usersDb wbs chs st sock (some jd) now =
          (removeUserFromRoom su.id cr st, chLeave chs cr sock.sockId, sock,
           [⟨.roomOthers cr, "user-left", "",
              .userList (getUsersInRoom cr (removeUserFromRoom su.id cr st))⟩,
            ⟨.caller, "room:join-error", "PARTICIPANT_LIMIT", .unit⟩]) := by
        unfold joinRoomHandler
        rw [hu]
        simp [hrid, hnin, hcrc, hroom, howner, husers, hcap]
      rw [hres]
      refine ⟨by simp, ?_, ?_⟩
      · intro e he
        simp only [List.mem_cons, List.not_mem_nil, or_false] at he
        rcases he with he | he <;> subst he
        · exact ⟨by simp [hcr2], by simp⟩
        · exact ⟨by simp, by simp⟩
      · intro u2
        rw [presLookup_removeUserFromRoom]
        simp [Ne.symm hcr2]

/-- C3 witness: room1 is at its FREE-plan capacity of 2 and userC, whose
    connection tracks no current room, is turned away with
    PARTICIPANT_LIMIT as the only caller-directed emission. -/
theorem C3_capacity_reject_witness :
    ((joinRoomHandler c3Rooms c3Users [] [] c3Pres c3SockW
        (some ⟨"room1", none, none⟩) 5).2.2.2.filter
        (fun e => decide (e.target = .caller)) =
      [⟨.caller, "room:join-error", "PARTICIPANT_LIMIT", .unit⟩]) :=
  (C3_capacity_reject c3Rooms c3Users [] [] c3Pres c3SockW
    ⟨"userC", "C", none, .FREE, false⟩ ⟨"room1", none, none⟩ 5
    ⟨"userO", ["userO", "userB"]⟩ ⟨.FREE⟩
    rfl (by decide) (by decide) (by decide) (by decide) (by decide) (by decide)).1

/-- C3 counterexample to the claim as stated: when the joining connection
    still tracks the target room as its current room (a stale tracked room
    with no presence record), the capacity-rejected join does broadcast
    into the room: the leave-previous-room step emits user-left to room1
    before the PARTICIPANT_LIMIT error is returned, so the claim that no
    broadcast is sent to the room fails on this input. -/
theorem C3_counterexample :
    ((joinRoomHandler c3Rooms c3Users [] [] c3Pres c3Sock
        (some ⟨"room1", none, none⟩) 5).2.2.2.filter
        (fun e => decide (e.target = .roomOthers "room1") ||
                  decide (e.target = .roomAll "room1")) ≠ []) ∧
    ((joinRoomHandler c3Rooms c3Users [] [] c3Pres c3Sock
        (some ⟨"room1", none, none⟩) 5).2.2.2.filter
        (fun e => decide (e.code = "PARTICIPANT_LIMIT"))).length = 1 := by
  decide

/-! ### C4: disconnect cleanup and the socket-id guard -/

theorem cleanup_foldl_preserves (u : UserId) (s : String) (r : RoomId) (u2 : UserId)
    (dat : UserPresenceData) (hne : u2 ≠ u ∨ dat.socketId ≠ s) :
    ∀ (rooms : List RoomId) (acc : PresenceStore),
      presLookup acc r u2 = some dat →
      presLookup (rooms.foldl (fun acc r0 =>
          match presLookup acc r0 u with
          | some d0 => if d0.socketId = s then removeUserFromRoom u r0 acc else acc
          | none => acc) acc) r u2 = some dat := by
  intro rooms
  induction rooms with
  | nil => intro acc h; simpa using h
  | cons r0 rest ih =>
      intro acc h
      rw [List.foldl_cons]
      apply ih
      cases hl : presLookup acc r0 u with
      | none => simpa [hl] using h
      | some d0 =>
          by_cases hs : d0.socketId = s
          · simp only [hl, hs, if_true]
            rw [presLookup_removeUserFromRoom]
            by_cases hcond : r = r0 ∧ u2 = u
            · exfalso
              obtain ⟨h1, h2⟩ := hcond
              rcases hne with hne | hne
              · exact hne h2
              · rw [h1, h2, hl] at h
                have h3 : d0 = dat := Option.some.inj h
                rw [h3] at hs
                exact hne hs
            · simp [hcond, h]
          · simpa [hl, hs] using h

/-- C4 (corrected): the connection-level presence cleanup,
    cleanupUserPresence invoked with the disconnecting socket id, removes a
    presence record only when the stored socket id matches: any record of
    another identity, and any record of the same identity stored by a
    different connection, survives the cleanup untouched.  The claim as a
    statement about the whole disconnect path fails, because the second
    disconnect listener registered by the room handler removes the
    (identity, currentRoom) record without comparing socket ids and
    re-broadcasts the departure on every signal; see the counterexample. -/
theorem C4_cleanup_socket_guard
    (u : UserId) (sid : String) (st : PresenceStore) (r : RoomId) (u2 : UserId)
    (dat : UserPresenceData)
    (hdat : presLookup st r u2 = some dat)
    (hne : u2 ≠ u ∨ dat.socketId ≠ sid) :
    presLookup (cleanupUserPresence u (some sid) st).1 r u2 = some dat := by
  exact cleanup_foldl_preserves u sid r u2 dat hne (getUserRooms u st) st hdat

/-- C4 witness: the record for user1 in room1 was written by sockB; cleanup
    for the disconnecting sockA leaves it in place. -/
theorem C4_cleanup_socket_guard_witness :
    presLookup (cleanupUserPresence "user1" (some "sockA") c4Pres).1 "room1" "user1" =
      some ⟨"user1", "U", none, "sockB", 0, 0⟩ :=
  C4_cleanup_socket_guard "user1" "sockA" c4Pres "room1" "user1"
    ⟨"user1", "U", none, "sockB", 0, 0⟩ (by decide) (Or.inr (by decide))

/-- C4 counterexample to the claim as stated: sockA disconnects while the
    room1 record for its identity was stored by sockB.  The full disconnect
    path still deletes that record (the room-handler disconnect listener
    removes it without a socket-id comparison), and a single signal already
    broadcasts user-left twice; a repeated signal for the same connection
    broadcasts the departure twice more, so disconnect handling is not
    idempotent in its broadcasts. -/
theorem C4_counterexample :
    ((presLookup c4Pres "room1" "user1").map (fun p => p.socketId) = some "sockB") ∧
    ("sockB" ≠ "sockA") ∧
    (presLookup (disconnectRoutine c4Chs c4Pres c4Sock).1 "room1" "user1" = none) ∧
    (((disconnectRoutine c4Chs c4Pres c4Sock).2.filter
        (fun e => decide (e.event = "user-left"))).length = 2) ∧
    (((disconnectRoutine c4Chs (disconnectRoutine c4Chs c4Pres c4Sock).1 c4Sock).2.filter
        (fun e => decide (e.event = "user-left"))).length = 2) := by
  decide

/-! ### C7: fixed-window per-event rate limiter -/

theorem socketRateLimitRun_cons (cfg : RateLimitOptions) (t : Nat) (rest : List Nat)
    (st : Option RateLimitEntry) :
    socketRateLimitRun cfg (t :: rest) st =
      ((socketRateLimitRun cfg rest (socketRateLimitStep cfg false true st t).1).1,
       ((socketRateLimitStep cfg false true st t).2.1,
        (socketRateLimitStep cfg false true st t).2.2) ::
         (socketRateLimitRun cfg rest (socketRateLimitStep cfg false true st t).1).2) := rfl

theorem socketRateLimitStep_within_ok (cfg : RateLimitOptions) (c e t : Nat)
    (ht : t < e) (hc : c + 1 ≤ cfg.maxRequests) :
    socketRateLimitStep cfg false true (some ⟨c, e⟩) t = (some ⟨c + 1, e⟩, true, []) := by
  unfold socketRateLimitStep
  simp [ht, Nat.not_lt.mpr hc]

theorem socketRateLimitStep_within_rej (cfg : RateLimitOptions) (c e t : Nat)
    (ht : t < e) (hc : ¬ c + 1 ≤ cfg.maxRequests) :
    socketRateLimitStep cfg false true (some ⟨c, e⟩) t =
      (some ⟨c + 1, e⟩, false, [errEm cfg]) := by
  unfold socketRateLimitStep
  simp [ht, Nat.lt_of_not_le hc, errEm]

theorem socketRateLimitStep_state_within (cfg : RateLimitOptions) (c e t : Nat)
    (ht : t < e) :
    (socketRateLimitStep cfg false true (some ⟨c, e⟩) t).1 = some ⟨c + 1, e⟩ := by
  by_cases hc : c + 1 ≤ cfg.maxRequests
  · rw [socketRateLimitStep_within_ok cfg c e t ht hc]
  · rw [socketRateLimitStep_within_rej cfg c e t ht hc]

theorem socketRateLimitStep_none (cfg : RateLimitOptions) (t : Nat)
    (h1 : 1 ≤ cfg.maxRequests) :
    socketRateLimitStep cfg false true none t =
      (some ⟨1, t + cfg.windowMs⟩, true, []) := by
  unfold socketRateLimitStep
  simp [Nat.not_lt.mpr h1]

theorem socketRateLimitStep_rollover (cfg : RateLimitOptions) (c e u : Nat)
    (h1 : 1 ≤ cfg.maxRequests) (hu : e ≤ u) :
    socketRateLimitStep cfg false true (some ⟨c, e⟩) u =
      (some ⟨1, u + cfg.windowMs⟩, true, []) := by
  unfold socketRateLimitStep
  simp [Nat.not_lt.mpr hu, Nat.not_lt.mpr h1]

theorem socketRateLimitRun_state (cfg : RateLimitOptions) (e : Nat) :
    ∀ (us : List Nat) (c : Nat), (∀ t ∈ us, t < e) →
      (socketRateLimitRun cfg us (some ⟨c, e⟩)).1 = some ⟨c + us.length, e⟩ := by
  intro us
  induction us with
  | nil => intro c _; simp [socketRateLimitRun]
  | cons t rest ih =>
      intro c h
      have ht : t < e := h t (by simp)
      have hrest : ∀ x ∈ rest, x < e := fun x hx => h x (by simp [hx])
      rw [socketRateLimitRun_cons, socketRateLimitStep_state_within cfg c e t ht]
      dsimp only
      rw [ih (c + 1) hrest]
      have harith : c + 1 + rest.length = c + (t :: rest).length := by
        simp only [List.length_cons]
        omega
      rw [harith]

theorem socketRateLimitRun_get (cfg : RateLimitOptions) (e : Nat) :
    ∀ (us : List Nat) (c i : Nat), (∀ t ∈ us, t < e) → i < us.length →
      (socketRateLimitRun cfg us (some ⟨c, e⟩)).2.get? i =
        some (if c + i + 1 ≤ cfg.maxRequests then (true, ([] : List Emission))
              else (false, [errEm cfg])) := by
  intro us
  induction us with
  | nil => intro c i _ hi; exact absurd hi (by simp)
  | cons t rest ih =>
      intro c i h hi
      have ht : t < e := h t (by simp)
      have hrest : ∀ x ∈ rest, x < e := fun x hx => h x (by simp [hx])
      rw [socketRateLimitRun_cons]
      cases i with
      | zero =>
          simp only [List.get?_cons_zero]
          by_cases hc : c + 1 ≤ cfg.maxRequests
          · rw [socketRateLimitStep_within_ok cfg c e t ht hc]
            have hc0 : c + 0 + 1 ≤ cfg.maxRequests := by omega
            simp [hc0]
          · rw [socketRateLimitStep_within_rej cfg c e t ht hc]
            have hc0 : ¬ c + 0 + 1 ≤ cfg.maxRequests := by omega
            simp [hc0]
      | succ j =>
          have hj : j < rest.length := by
            simpa [Nat.succ_lt_succ_iff] using hi
          simp only [List.get?_cons_succ]
          rw [socketRateLimitStep_state_within cfg c e t ht]
          have harith : c + (j + 1) + 1 = c + 1 + j + 1 := by omega
          rw [harith]
          exact ih (c + 1) j hrest hj

/-- C7 (confirmed): for the fixed-window limiter with limit N and window W
    keyed per (identity, eventName), starting from a fresh counter the
    wrapped handler runs for each of the first N events inside the window,
    the (N+1)th event inside the window does not reach the handler and
    instead a structured rate-limit error (code RATE_LIMIT_EXCEEDED, limit
    and window) is emitted to the caller only; the first event at or after
    the window expiry is accepted again; and when the backing Redis store
    fails the handler is invoked anyway with the state untouched (fail
    open). -/
theorem C7_fixed_window_limiter
    (cfg : RateLimitOptions) (t0 : Nat) (ts : List Nat)
    (h1 : 1 ≤ cfg.maxRequests)
    (hlen : ts.length = cfg.maxRequests)
    (hw : ∀ t ∈ ts, t < t0 + cfg.windowMs) :
    (∀ i, i < cfg.maxRequests →
        (socketRateLimitRun cfg (t0 :: ts) none).2.get? i = some (true, [])) ∧
    ((socketRateLimitRun cfg (t0 :: ts) none).2.get? cfg.maxRequests =
        some (false, [errEm cfg])) ∧
    (∀ u, t0 + cfg.windowMs ≤ u →
        socketRateLimitStep cfg false true (socketRateLimitRun cfg (t0 :: ts) none).1 u =
          (some ⟨1, u + cfg.windowMs⟩, true, [])) ∧
    (∀ (st : Option RateLimitEntry) (t : Nat),
        socketRateLimitStep cfg false false st t = (st, true, [])) := by
  have hhead : socketRateLimitRun cfg (t0 :: ts) none =
      ((socketRateLimitRun cfg ts (some ⟨1, t0 + cfg.windowMs⟩)).1,
       (true, []) :: (socketRateLimitRun cfg ts (some ⟨1, t0 + cfg.windowMs⟩)).2) := by
    rw [socketRateLimitRun_cons, socketRateLimitStep_none cfg t0 h1]
  refine ⟨?_, ?_, ?_, ?_⟩
  · intro i hi
    rw [hhead]
    cases i with
    | zero => simp
    | succ j =>
        have hj : j < ts.length := by omega
        simp only [List.get?_cons_succ]
        rw [socketRateLimitRun_get cfg (t0 + cfg.windowMs) ts 1 j hw hj]
        have hc : 1 + j + 1 ≤ cfg.maxRequests := by omega
        simp [hc]
  · rw [hhead]
    obtain ⟨m, hm⟩ : ∃ m, cfg.maxRequests = m + 1 := ⟨cfg.maxRequests - 1, by omega⟩
    have hj : m < ts.length := by omega
    rw [hm]
    simp only [List.get?_cons_succ]
    rw [socketRateLimitRun_get cfg (t0 + cfg.windowMs) ts 1 m hw hj]
    have hc : ¬ 1 + m + 1 ≤ cfg.maxRequests := by omega
    simp [hc]
  · intro u hu
    rw [hhead]
    dsimp only
    rw [socketRateLimitRun_state cfg (t0 + cfg.windowMs) ts 1 hw]
    exact socketRateLimitStep_rollover cfg (1 + ts.length) (t0 + cfg.windowMs) u h1 hu
  · intro st t
    unfold socketRateLimitStep
    simp

/-- C7 witness: limit 2 per 100 ms; events at 0, 10 and 20 ms from a fresh
    counter: the third is rejected with the structured error. -/
theorem C7_fixed_window_limiter_witness :
    (socketRateLimitRun c7Cfg [0, 10, 20] none).2.get? 2 =
      some (false, [errEm c7Cfg]) :=
  (C7_fixed_window_limiter c7Cfg 0 [10, 20] (by decide) (by decide) (by decide)).2.1

/-! ### C8: snapshot threshold and bounded history -/

theorem whiteboardPreSave_snapshots_true (d : WhiteboardDoc) (a f : Bool) (now : Nat) :
    (whiteboardPreSave d true a f now).snapshots =
      if 10 < d.elements.length then
        (if 50 < d.snapshots.length + 1
         then (d.snapshots ++ [snapOf d now]).drop (d.snapshots.length + 1 - 50)
         else d.snapshots ++ [snapOf d now])
      else d.snapshots := by
  unfold whiteboardPreSave
  simp only [Bool.true_or, if_true, Bool.true_and]
  by_cases h10 : 10 < d.elements.length
  · simp [h10, snapOf]
  · simp [h10]

theorem whiteboardPreSave_snapshots_false (d : WhiteboardDoc) (a f : Bool) (now : Nat) :
    (whiteboardPreSave d false a f now).snapshots = d.snapshots := by
  unfold whiteboardPreSave
  split
  · dsimp only
    split
    · next hcond => simp at hcond
    · rfl
  · rfl

/-- C8 (corrected): the pre-save middleware appends a snapshot exactly when
    the element list was modified and the RESULTING element list holds more
    than 10 elements; the number of elements the mutation changed plays no
    role, as the counterexample shows.  The snapshot list stays bounded by
    50: below the bound the snapshot is appended at the end, at the bound
    the oldest entry is evicted, a mutation below the size threshold or one
    that does not touch the element list leaves the history unchanged. -/
theorem C8_snapshot_threshold_and_bound
    (d : WhiteboardDoc) (a f : Bool) (now : Nat)
    (hb : d.snapshots.length ≤ 50) :
    ((whiteboardPreSave d true a f now).snapshots.length ≤ 50) ∧
    (10 < d.elements.length →
        (d.snapshots.length < 50 →
            (whiteboardPreSave d true a f now).snapshots = d.snapshots ++ [snapOf d now]) ∧
        (d.snapshots.length = 50 →
            (whiteboardPreSave d true a f now).snapshots =
              d.snapshots.tail ++ [snapOf d now])) ∧
    (¬ 10 < d.elements.length →
        (whiteboardPreSave d true a f now).snapshots = d.snapshots) ∧
    (∀ (a2 f2 : Bool), (whiteboardPreSave d false a2 f2 now).snapshots = d.snapshots) := by
  refine ⟨?_, ?_, ?_, ?_⟩
  · rw [whiteboardPreSave_snapshots_true]
    by_cases h10 : 10 < d.elements.length
    · by_cases hfull : 50 < d.snapshots.length + 1
      · simp only [h10, hfull, if_true]
        rw [List.length_drop]
        simp only [List.length_append, List.length_cons, List.length_nil]
        omega
      · simp only [h10, hfull, if_true, if_false]
        simp only [List.length_append, List.length_cons, List.length_nil]
        omega
    · simp [h10, hb]
  · intro h10
    constructor
    · intro hlt
      rw [whiteboardPreSave_snapshots_true]
      have hfull : ¬ 50 < d.snapshots.length + 1 := by omega
      simp [h10, hfull]
    · intro heq
      rw [whiteboardPreSave_snapshots_true]
      have hfull : 50 < d.snapshots.length + 1 := by omega
      simp only [h10, hfull, if_true]
      have hdrop1 : d.snapshots.length + 1 - 50 = 1 := by omega
      rw [hdrop1]
      have h1le : 1 ≤ d.snapshots.length := by omega
      rw [List.drop_append_of_le_length h1le, List.drop_one]
  · intro h10
    rw [whiteboardPreSave_snapshots_true]
    simp [h10]
  · intro a2 f2
    exact whiteboardPreSave_snapshots_false d a2 f2 now

/-- C8 witness: the theorem applied to the 11-element document with an
    empty history: the element list was modified, the resulting list
    exceeds 10 elements, and the snapshot is appended. -/
theorem C8_snapshot_threshold_and_bound_witness :
    (whiteboardPreSave c8Doc true false false 3).snapshots =
      c8Doc.snapshots ++ [snapOf c8Doc 3] :=
  ((C8_snapshot_threshold_and_bound c8Doc false false 3 (by decide)).2.1
    (by decide)).1 (by decide)

/-- C8 counterexample to the claim as stated: an element-create on a
    document that already holds 11 elements changes exactly one element
    (the 11 stored elements are kept and one new element is appended, as
    the first conjunct shows), yet a snapshot is appended, because the code
    tests the length of the resulting element list, not the number of
    elements the mutation changed. -/
theorem C8_counterexample :
    (applyElementCreate c8Doc "user1" (exElem "new") 3).elements =
      c8Doc.elements ++ [⟨"new", "", some "user1", some 3⟩] ∧
    (applyElementCreate c8Doc "user1" (exElem "new") 3).snapshots.length =
      c8Doc.snapshots.length + 1 := by
  decide

/-! ### C9: broadcast audiences -/

theorem self_not_in_audience_roomOthers (chs : Channels) (s c : String) :
    s ∉ audience chs s (.roomOthers c) := by
  unfold audience
  intro hmem
  have h := List.mem_filter.mp hmem
  simp at h

theorem joinRoomHandler_userJoined_target
    (roomsDb : List (RoomId × RoomDoc)) (usersDb : List (UserId × DbUser))
    (wbs : List (RoomId × WhiteboardDoc)) (chs : Channels) (st : PresenceStore)
    (sock : SocketCtx) (data : Option JoinData) (now : Nat) :
    ∀ e ∈ (joinRoomHandler roomsDb usersDb wbs chs st sock data now).2.2.2,
      e.event = "user-joined" → ∃ c, e.target = EmitTarget.roomOthers c := by
  intro e he hev
  unfold joinRoomHandler at he
  dsimp only at he
  repeat' split at he
  all_goals simp only [List.cons_append, List.nil_append] at he
  all_goals fin_cases he
  all_goals first
    | exact ⟨_, rfl⟩
    | simp at hev

theorem whiteboardUpdateHandler_updated_target
    (chs : Channels) (rl : RateMap) (wb : Option WhiteboardDoc)
    (sock : SocketCtx) (data : WbUpdateData) (now : Nat) :
    ∀ e ∈ (whiteboardUpdateHandler chs rl wb sock data now).2.2,
      e.event = "whiteboard-updated" → ∃ c, e.target = EmitTarget.roomOthers c := by
  intro e he hev
  unfold whiteboardUpdateHandler at he
  try dsimp only at he
  repeat' split at he
  all_goals fin_cases he
  all_goals first
    | exact ⟨_, rfl⟩
    | simp at hev

theorem elementCreateHandler_created_target
    (chs : Channels) (wb : Option WhiteboardDoc) (sock : SocketCtx)
    (data : ElementData) (now : Nat) :
    ∀ e ∈ (elementCreateHandler chs wb sock data now).2,
      e.event = "element-created" → ∃ c, e.target = EmitTarget.roomOthers c := by
  intro e he hev
  unfold elementCreateHandler at he
  try dsimp only at he
  repeat' split at he
  all_goals fin_cases he
  all_goals first
    | exact ⟨_, rfl⟩
    | simp at hev

theorem elementUpdateHandler_updated_target
    (chs : Channels) (wb : Option WhiteboardDoc) (sock : SocketCtx)
    (data : ElementData) (now : Nat) :
    ∀ e ∈ (elementUpdateHandler chs wb sock data now).2,
      e.event = "element-updated" → ∃ c, e.target = EmitTarget.roomOthers c := by
  intro e he hev
  unfold elementUpdateHandler at he
  try dsimp only at he
  repeat' split at he
  all_goals fin_cases he
  all_goals first
    | exact ⟨_, rfl⟩
    | simp at hev

theorem elementDeleteHandler_deleted_target
    (chs : Channels) (wb : Option WhiteboardDoc) (sock : SocketCtx)
    (data : ElementDeleteData) (now : Nat) :
    ∀ e ∈ (elementDeleteHandler chs wb sock data now).2,
      e.event = "element-deleted" → ∃ c, e.target = EmitTarget.roomOthers c := by
  intro e he hev
  unfold elementDeleteHandler at he
  try dsimp only at he
  repeat' split at he
  all_goals fin_cases he
  all_goals first
    | exact ⟨_, rfl⟩
    | simp at hev

/-- C9 (confirmed): a user-joined broadcast produced by the join handler
    and a whiteboard-updated, element-created, element-updated or
    element-deleted broadcast produced by an accepted whiteboard edit are
    always emitted through socket.to, whose audience excludes the
    originating connection under every channel state; the chat:message
    broadcast goes through io.to on the chat channel, whose audience is the
    full channel membership, so a sender who joined the chat channel does
    receive it. -/
theorem C9_broadcast_audiences :
    (∀ (roomsDb : List (RoomId × RoomDoc)) (usersDb : List (UserId × DbUser))
        (wbs : List (RoomId × WhiteboardDoc)) (chs : Channels) (st : PresenceStore)
        (sock : SocketCtx) (data : Option JoinData) (now : Nat),
        ∀ e ∈ (joinRoomHandler roomsDb usersDb wbs chs st sock data now).2.2.2,
          e.event = "user-joined" →
            ∀ chs2, sock.sockId ∉ audience chs2 sock.sockId e.target) ∧
    (∀ (chs : Channels) (rl : RateMap) (wb : Option WhiteboardDoc)
        (sock : SocketCtx) (data : WbUpdateData) (now : Nat),
        ∀ e ∈ (whiteboardUpdateHandler chs rl wb sock data now).2.2,
          e.event = "whiteboard-updated" →
            ∀ chs2, sock.sockId ∉ audience chs2 sock.sockId e.target) ∧
    (∀ (chs : Channels) (wb : Option WhiteboardDoc) (sock : SocketCtx)
        (data : ElementData) (now : Nat),
        ∀ e ∈ (elementCreateHandler chs wb sock data now).2,
          e.event = "element-created" →
            ∀ chs2, sock.sockId ∉ audience chs2 sock.sockId e.target) ∧
    (∀ (chs : Channels) (wb : Option WhiteboardDoc) (sock : SocketCtx)
        (data : ElementData) (now : Nat),
        ∀ e ∈ (elementUpdateHandler chs wb sock data now).2,
          e.event = "element-updated" →
            ∀ chs2, sock.sockId ∉ audience chs2 sock.sockId e.target) ∧
    (∀ (chs : Channels) (wb : Option WhiteboardDoc) (sock : SocketCtx)
        (data : ElementDeleteData) (now : Nat),
        ∀ e ∈ (elementDeleteHandler chs wb sock data now).2,
          e.event = "element-deleted" →
            ∀ chs2, sock.sockId ∉ audience chs2 sock.sockId e.target) ∧
    (∀ (msgs : List ChatMessage) (sock : SocketCtx) (su : SocketUser)
        (rid content : String) (now : Nat) (chs : Channels),
        sock.user = some su →
        sock.sockId ∈ chGet chs ("chat:" ++ rid) →
          (chatMessageHandler msgs sock rid content now).2 =
            [⟨.roomAll ("chat:" ++ rid), "chat:message", "", .unit⟩] ∧
          sock.sockId ∈ audience chs sock.sockId (.roomAll ("chat:" ++ rid))) := by
  refine ⟨?_, ?_, ?_, ?_, ?_, ?_⟩
  · intro roomsDb usersDb wbs chs st sock data now e he hev chs2
    obtain ⟨c, hc⟩ :=
      joinRoomHandler_userJoined_target roomsDb usersDb wbs chs st sock data now e he hev
    rw [hc]
    exact self_not_in_audience_roomOthers chs2 sock.sockId c
  · intro chs rl wb sock data now e he hev chs2
    obtain ⟨c, hc⟩ :=
      whiteboardUpdateHandler_updated_target chs rl wb sock data now e he hev
    rw [hc]
    exact self_not_in_audience_roomOthers chs2 sock.sockId c
  · intro chs wb sock data now e he hev chs2
    obtain ⟨c, hc⟩ :=
      elementCreateHandler_created_target chs wb sock data now e he hev
    rw [hc]
    exact self_not_in_audience_roomOthers chs2 sock.sockId c
  · intro chs wb sock data now e he hev chs2
    obtain ⟨c, hc⟩ :=
      elementUpdateHandler_updated_target chs wb sock data now e he hev
    rw [hc]
    exact self_not_in_audience_roomOthers chs2 sock.sockId c
  · intro chs wb sock data now e he hev chs2
    obtain ⟨c, hc⟩ :=
      elementDeleteHandler_deleted_target chs wb sock data now e he hev
    rw [hc]
    exact self_not_in_audience_roomOthers chs2 sock.sockId c
  · intro msgs sock su rid content now chs hu hm
    constructor
    · unfold chatMessageHandler
      rw [hu]
    · exact hm

/-- C9 witness: the chat conjunct at a concrete channel state in which the
    sender sockA is a member of the chat channel: the chat:message
    broadcast is addressed to the whole channel and the sender is in its
    audience. -/
theorem C9_broadcast_audiences_witness :
    (chatMessageHandler [] c9Sock "room1" "hello" 7).2 =
      [⟨.roomAll "chat:room1", "chat:message", "", .unit⟩] ∧
    "sockA" ∈ audience c9Chs "sockA" (.roomAll "chat:room1") := by
  have h := C9_broadcast_audiences.2.2.2.2.2 [] c9Sock
    ⟨"user1", "U", none, .FREE, false⟩ "room1" "hello" 7 c9Chs rfl (by decide)
  exact h

/-! ### C10: room user listing access -/

/-- C10 (confirmed): the get-room-users handler returns the full presence
    list of any requested room to the caller without consulting the caller
    identity or membership at all, while the request-room-users handler
    rejects an authenticated caller who is not present in the room with an
    UNAUTHORIZED error and returns no list. -/
theorem C10_room_user_listing
    (st : PresenceStore) (sock : SocketCtx) (su : SocketUser) (rd : RoomIdData)
    (hu : sock.user = some su)
    (hrid : ¬ rd.roomId = "")
    (hnm : isUserInRoom su.id rd.roomId st = false) :
    getRoomUsersHandler st (some rd) =
      [⟨.caller, "room-users", "", .userList (getUsersInRoom rd.roomId st)⟩] ∧
    requestRoomUsersHandler st sock (some rd) =
      [⟨.caller, "error", "UNAUTHORIZED", .unit⟩] := by
  constructor
  · rfl
  · unfold requestRoomUsersHandler
    rw [hu]
    simp [hrid, hnm]

/-- C10 witness: user1 is not present in room1 yet get-room-users returns
    the full list, while request-room-users rejects with UNAUTHORIZED. -/
theorem C10_room_user_listing_witness :
    getRoomUsersHandler c10Pres (some ⟨"room1"⟩) =
      [⟨.caller, "room-users", "", .userList (getUsersInRoom "room1" c10Pres)⟩] ∧
    requestRoomUsersHandler c10Pres c10Sock (some ⟨"room1"⟩) =
      [⟨.caller, "error", "UNAUTHORIZED", .unit⟩] :=
  C10_room_user_listing c10Pres c10Sock ⟨"user1", "U", none, .FREE, false⟩ ⟨"room1"⟩
    rfl (by decide) (by decide)

end CollabSpace
